import Mathlib

/-!
Shallow embedding of python-decouple (`src/decouple/__init__.py`), a layered
configuration-resolution library.  Machine model:

* the host environment `os.environ` is an association list `List (String × String)`
  (first binding wins on lookup, as a string mapping);
* Python strings are `String` / `List Char`; `str.strip` and friends are
  reimplemented below character-for-character;
* fallible Python code returns `Except PyErr _`;
* Python values that can flow through `Config.get` (strings, `None`, bools,
  ints used as defaults) are the inductive `PyVal`;
* absolute POSIX directory paths are component lists `List String`
  (`"/a/b" ↦ ["a","b"]`, the root `"/" ↦ []`), so `os.path.dirname` is
  `List.dropLast` and the guard `parent != os.path.abspath(os.sep)` is
  `parent ≠ []` (for an absolute path `os.path.dirname` never returns the
  empty string, so the truthiness test `if parent` is always true).
-/

namespace Decouple

/-- Python exception values that the modelled code can raise. -/
inductive PyErr where
  /-- `UndefinedValueError`, carrying its message string. -/
  | undefinedValueError (msg : String)
  /-- `ValueError`, carrying its message string. -/
  | valueError (msg : String)
  /-- `KeyError` from a dict lookup, carrying the missing key. -/
  | keyError (key : String)
  /-- `configparser.NoOptionError`, carrying the missing option. -/
  | noOptionError (key : String)
  /-- `configparser` interpolation failures (syntax or depth). -/
  | interpolationError
  /-- `shlex` posix-mode "No closing quotation" / "No escaped character". -/
  | shlexError (msg : String)
  /-- An operating-system error (e.g. permission denied) raised by a
  filesystem primitive during discovery. -/
  | osError
deriving DecidableEq, Repr

/-- Python values that flow through `Config.get`: raw strings from the
environment or a repository, and the defaults the tests use
(`None`, bools, ints). -/
inductive PyVal where
  | str (s : String)
  | pyNone
  | pyBool (b : Bool)
  | pyInt (n : Int)
deriving DecidableEq, Repr

/-- Python `str(value)` on the values of `PyVal`. -/
def pyStr : PyVal → String
  | .str s => s
  | .pyNone => "None"
  | .pyBool true => "True"
  | .pyBool false => "False"
  | .pyInt n => toString n

/-- Python `str.lower()` (ASCII), character by character. -/
def pyLower (s : String) : String :=
  ⟨s.data.map Char.toLower⟩

/-- The characters Python `str.strip()` removes (ASCII whitespace). -/
def wsChars : List Char := [' ', '\t', '\n', '\r', '\x0b', '\x0c']

/-- Python `str.lstrip(chars)` on a character list: drop leading characters
belonging to `cs`. -/
def lstripChars (cs : List Char) (s : List Char) : List Char :=
  s.dropWhile (fun c => c ∈ cs)

/-- Python `str.strip(chars)` on a character list: drop leading and trailing
characters belonging to `cs`. -/
def stripCharsL (cs : List Char) (s : List Char) : List Char :=
  (lstripChars cs (lstripChars cs s).reverse).reverse

/-- Python `str.strip(chars)` on `String`. -/
def pyStrip (s : String) (cs : List Char) : String :=
  ⟨stripCharsL cs s.data⟩

/-- Python `str.strip()` (whitespace strip) on `String`. -/
def pyStripWs (s : String) : String := pyStrip s wsChars

/-- Association-list lookup, the model of both `os.environ[k]` and a Python
dict lookup `d[k]` (first binding wins; `dictInsert` keeps keys unique). -/
def lookupAssoc (d : List (String × String)) (k : String) : Option String :=
  d.lookup k

/-- Python dict assignment `d[k] = v`: overwrite the existing binding in
place, otherwise append (preserving insertion order). -/
def dictInsert (d : List (String × String)) (k v : String) : List (String × String) :=
  if (d.lookup k).isSome then
    d.map (fun p => if p.1 = k then (k, v) else p)
  else
    d ++ [(k, v)]

/-- `key in os.environ`. -/
def envHas (environ : List (String × String)) (key : String) : Bool :=
  (lookupAssoc environ key).isSome

/-! ## `RepositoryEnv.__init__`: the line-file (".env") parser -/

/-- Python `line.split('=', 1)` given that `'='` occurs in `line`: the part
before the first `'='` and the part after it. -/
def splitKV (l : List Char) : List Char × List Char :=
  (l.takeWhile (fun c => c ≠ '='), (l.dropWhile (fun c => c ≠ '=')).drop 1)

/-- The value transformation of `RepositoryEnv.__init__` (lines 134-136 of
`src/decouple/__init__.py`), applied to the whitespace-trimmed value `v`:
`if len(v) >= 2 and ((v[0] == "'" and v[-1] == "'") or (v[0] == '"' and v[-1] == '"')): v = v.strip('\'"')`. -/
def processValue (v : List Char) : List Char :=
  if 2 ≤ v.length ∧
      ((v.head? = some '\'' ∧ v.getLast? = some '\'') ∨
       (v.head? = some '"' ∧ v.getLast? = some '"')) then
    stripCharsL ['\'', '"'] v
  else v

/-- One iteration of the `for line in file_` loop of `RepositoryEnv.__init__`:
trim the line, skip blanks, `#`-comments and lines without `'='`, split at the
first `'='`, trim both sides, quote-process the value, assign into the dict. -/
def envProcessLine (d : List (String × String)) (rawLine : String) :
    List (String × String) :=
  let line := pyStripWs rawLine
  if line = "" then d
  else if line.data.head? = some '#' then d
  else if '=' ∈ line.data then
    let kv := splitKV line.data
    let k := stripCharsL wsChars kv.1
    let v := processValue (stripCharsL wsChars kv.2)
    dictInsert d ⟨k⟩ ⟨v⟩
  else d

/-- `RepositoryEnv.__init__`: the parsed `self.data` mapping, built by a single
top-to-bottom scan over the file's lines (later assignments overwrite). -/
def repositoryEnvData (lines : List String) : List (String × String) :=
  lines.foldl envProcessLine []

/-! ## The repositories (RawStores) -/

/-- The state of a constructed repository.  `envfile` holds the parsed
`RepositoryEnv.data` mapping; `ini` holds the `[settings]` section of the
`ConfigParser` as an association list whose keys have already been lowercased
by the parser's `optionxform` (the model covers ini files that contain the
`[settings]` section). -/
inductive Repo where
  | empty
  | envfile (data : List (String × String))
  | ini (section_ : List (String × String))
deriving DecidableEq, Repr

/-- `configparser` `BasicInterpolation.before_get`, restricted to a single
section: rewrite `%%` to `%` and `%(name)s` to the interpolated value of
`name` in the same section; any other use of `%` is an interpolation syntax
error; recursion deeper than `MAX_INTERPOLATION_DEPTH = 10` is a depth
error.  `fuel` counts the remaining depth. -/
def interpolateChars (section_ : List (String × String)) :
    Nat → List Char → Except PyErr (List Char)
  | _, [] => .ok []
  | fuel, '%' :: '%' :: rest => do
      let tail ← interpolateChars section_ fuel rest
      pure ('%' :: tail)
  | fuel, '%' :: '(' :: rest =>
      let name := rest.takeWhile (fun c => c ≠ ')')
      match h : (rest.dropWhile (fun c => c ≠ ')')) with
      | ')' :: 's' :: rest2 =>
          match fuel with
          | 0 => .error .interpolationError
          | fuel' + 1 =>
              match lookupAssoc section_ (pyLower ⟨name⟩) with
              | none => .error .interpolationError
              | some v => do
                  let vi ← interpolateChars section_ fuel' v.data
                  let tail ← interpolateChars section_ (fuel' + 1) rest2
                  pure (vi ++ tail)
      | _ => .error .interpolationError
  | _, '%' :: _ => .error .interpolationError
  | fuel, c :: rest => do
      let tail ← interpolateChars section_ fuel rest
      pure (c :: tail)
termination_by fuel l => (fuel, l.length)
decreasing_by
  · simp [Prod.lex_def]
    omega
  · exact Prod.Lex.left _ _ (Nat.lt_succ_self _)
  · have hle : (List.dropWhile (fun c => c ≠ ')') rest).length ≤ rest.length :=
      (List.IsSuffix.sublist (List.dropWhile_suffix _)).length_le
    rw [h] at hle
    simp at hle ⊢
    exact Prod.Lex.right _ (by omega)
  · simp [Prod.lex_def]

/-- `ConfigParser.get('settings', key)` value interpolation entry point. -/
def iniInterpolate (section_ : List (String × String)) (raw : String) :
    Except PyErr String :=
  (interpolateChars section_ 10 raw.data).map (fun l => ⟨l⟩)

/-- The repositories' `__contains__`.  `RepositoryEmpty` contains nothing;
`RepositoryEnv.__contains__` is `key in os.environ or key in self.data`;
`RepositoryIni.__contains__` is `key in os.environ or
self.parser.has_option('settings', key)` (option names lowercased by the
parser). -/
def repoContains (environ : List (String × String)) : Repo → String → Bool
  | .empty, _ => false
  | .envfile data, key => envHas environ key || (lookupAssoc data key).isSome
  | .ini section_, key =>
      envHas environ key || (lookupAssoc section_ (pyLower key)).isSome

/-- The repositories' `__getitem__`, returning `Optional[str]`.
`RepositoryEmpty.__getitem__` returns `None`; `RepositoryEnv.__getitem__` is
`self.data[key]` (raising `KeyError` on a miss); `RepositoryIni.__getitem__`
is `self.parser.get('settings', key)` (interpolating, raising
`NoOptionError` on a miss). -/
def repoGetitem : Repo → String → Except PyErr (Option String)
  | .empty, _ => .ok none
  | .envfile data, key =>
      match lookupAssoc data key with
      | some v => .ok (some v)
      | none => .error (.keyError key)
  | .ini section_, key =>
      match lookupAssoc section_ (pyLower key) with
      | some raw => (iniInterpolate section_ raw).map some
      | none => .error (.noOptionError key)

/-! ## `Config.get` -/

/-- `distutils.util.strtobool`: lowercase the string and map the truthy and
falsy token tables, raising `ValueError` on anything else. -/
def strtobool (s : String) : Except PyErr Nat :=
  let val := pyLower s
  if val ∈ ["y", "yes", "t", "true", "on", "1"] then .ok 1
  else if val ∈ ["n", "no", "f", "false", "off", "0"] then .ok 0
  else .error (.valueError ("invalid truth value " ++ "'" ++ val ++ "'"))

/-- `Config._cast_boolean`: stringify the value, return `bool(value)` when
the string is empty, otherwise `bool(strtobool(value))`. -/
def castBoolean (v : PyVal) : Except PyErr Bool :=
  let s := pyStr v
  if s = "" then .ok false
  else (strtobool s).map (fun n => n ≠ 0)

/-- The cast argument of `Config.get`, as an explicit variant: the default
`_cast_do_nothing`, the builtin `bool` (special-cased to `_cast_boolean` by
the identity check `cast is bool`), or any other callable. -/
inductive Cast where
  | doNothing
  | toBool
  | custom (f : PyVal → Except PyErr PyVal)

/-- Applying the (possibly rewritten) cast at the `return cast(value)` line
of `Config.get`. -/
def applyCast : Cast → PyVal → Except PyErr PyVal
  | .doNothing, v => .ok v
  | .toBool, v => (castBoolean v).map PyVal.pyBool
  | .custom f, v => f v

/-- `Optional[str]` as a `PyVal`. -/
def pyOfOpt : Option String → PyVal
  | some s => .str s
  | none => .pyNone

/-- The `UndefinedValueError` message format of `Config.get`. -/
def undefinedMsg (option : String) : String :=
  option ++ " not found. Declare it as envvar or define a default value."

/-- `Config.get(option, default, cast)`: check `os.environ` first, then the
repository, then the default (`default = Option.none` models the `undefined`
sentinel, `some d` any real default including Python's `None`), raising
`UndefinedValueError` otherwise; finally apply the cast (rewritten to
`_cast_boolean` when it is `bool`). -/
def configGet (environ : List (String × String)) (repo : Repo) (option : String)
    (default : Option PyVal) (cast : Cast) : Except PyErr PyVal :=
  match lookupAssoc environ option with
  | some v => applyCast cast (.str v)
  | none =>
      if repoContains environ repo option then
        match repoGetitem repo option with
        | .ok v => applyCast cast (pyOfOpt v)
        | .error e => .error e
      else
        match default with
        | none => .error (.undefinedValueError (undefinedMsg option))
        | some d => applyCast cast d

/-! ## `AutoConfig`: discovery (`_find_file`) and lazy loading (`_load`) -/

/-- The filesystem oracle seen by the upward search: `os.path.isfile` on a
directory (component list) and a filename, which may raise an operating-system
error (e.g. permission denied). -/
structure Fs where
  isfile : List String → String → Except PyErr Bool

/-- `AutoConfig.SUPPORTED`'s keys, in the `OrderedDict`'s fixed priority
order. -/
def supportedNames : List String := ["settings.ini", ".env"]

/-- The `for configfile in self.SUPPORTED` loop of `AutoConfig._find_file`:
first supported filename that is a regular file in `path`. -/
def findInDir (fs : Fs) (path : List String) :
    List String → Except PyErr (Option String)
  | [] => .ok none
  | name :: rest =>
      match fs.isfile path name with
      | .error e => .error e
      | .ok true => .ok (some name)
      | .ok false => findInDir fs path rest

/-- `AutoConfig._find_file`: check the supported filenames at `path`; when
none match, recurse into the parent (`os.path.dirname`, i.e. `List.dropLast`)
unless the parent is the filesystem root
(`parent != os.path.abspath(os.sep)`, i.e. `path.dropLast = []`; for an
absolute path `os.path.dirname` never returns the empty string, so the
`if parent` truthiness guard is always satisfied).  Returns the directory and
filename of the match, or `none` for the `return ''` branch. -/
def findFile (fs : Fs) (path : List String) :
    Except PyErr (Option (List String × String)) :=
  match findInDir fs path supportedNames with
  | .error e => .error e
  | .ok (some name) => .ok (some (path, name))
  | .ok none =>
      if path.dropLast = [] then .ok none
      else findFile fs path.dropLast
termination_by path.length
decreasing_by
  have hp : path ≠ [] := by
    rintro rfl
    simp at *
  have hl : 0 < path.length := List.length_pos.mpr hp
  simp [List.length_dropLast]
  omega

/-- The kind of store `AutoConfig._load` ends up constructing:
`RepositoryEmpty`, or `RepositoryIni` / `RepositoryEnv` on the discovered
file. -/
inductive StoreKind where
  | empty
  | iniStore (dir : List String)
  | envStore (dir : List String)
deriving DecidableEq, Repr

/-- `AutoConfig._load`: run `_find_file` inside `try/except Exception`,
treating any raised error as `filename = ''`; then
`SUPPORTED.get(os.path.basename(filename), RepositoryEmpty)` picks the store
constructor (the basename of a discovered file is always one of the supported
names; `basename('') = ''` selects `RepositoryEmpty`). -/
def autoLoadKind (fs : Fs) (path : List String) : StoreKind :=
  let found :=
    match findFile fs path with
    | .error _ => none
    | .ok r => r
  match found with
  | none => .empty
  | some (d, name) =>
      if name = "settings.ini" then .iniStore d
      else if name = ".env" then .envStore d
      else .empty

/-- The chain of directories `_find_file` actually examines, starting from
`path`: the start itself, then each ancestor, stopping before the root
(the root is included only when it is the start). -/
def searchChain : List String → List (List String)
  | [] => [[]]
  | a :: p =>
      (a :: p) ::
        (if (a :: p).dropLast = [] then [] else searchChain (a :: p).dropLast)
termination_by l => l.length
decreasing_by
  simp [List.length_dropLast]

/-! ## `Csv` (ListCast): posix `shlex` word splitting

The tokenizer is the standard library's `shlex` in posix mode with
`whitespace` replaced by the delimiter characters and
`whitespace_split = True` (quotes `'` and `"`, escape `\`, escaped quotes
`"`, comment character `#`); its state machine is reproduced below. -/

/-- The tokenizer's state: between tokens, inside a word, inside a quote,
just after an escape character (from a word, or from inside a double quote),
or skipping a `#` comment to the end of the line (the `readline` call of the
comment branch, taken one character at a time). -/
inductive SMode where
  | ws
  | word
  | inQuote (q : Char)
  | escWord
  | escQuote (q : Char)
  | comment
deriving DecidableEq, Repr

/-- `shlex.quotes`. -/
def shlexQuotes : List Char := ['\'', '"']

/-- `shlex.escapedquotes`: quotes inside which the escape character works. -/
def shlexEscapedQuotes : List Char := ['"']

/-- Modelled from the spec: the shell-style word splitting of §4.6 — the
standard library's posix `shlex` loop, which is not part of this repository.
`delims` are the whitespace/delimiter characters, `tok` the accumulating
token, `quoted` whether the current token saw a quote (so that an empty
quoted token is still emitted), `acc` the tokens produced so far.  Quoted
substrings are literal spans not subject to splitting, backslash escaping
follows posix rules, and unclosed quotes or trailing escapes raise
`ValueError` exactly as `shlex` does. -/
def shlexRun (delims : List Char) :
    List Char → SMode → List Char → Bool → List String →
    Except PyErr (List String)
  | [], .ws, tok, quoted, acc =>
      .ok (acc ++ if tok ≠ [] ∨ quoted then [(⟨tok⟩ : String)] else [])
  | [], .word, tok, quoted, acc =>
      .ok (acc ++ if tok ≠ [] ∨ quoted then [(⟨tok⟩ : String)] else [])
  | [], .comment, _, _, acc => .ok acc
  | [], .inQuote _, _, _, _ => .error (.shlexError "No closing quotation")
  | [], .escWord, _, _, _ => .error (.shlexError "No escaped character")
  | [], .escQuote _, _, _, _ => .error (.shlexError "No escaped character")
  | c :: rest, .ws, tok, quoted, acc =>
      if c ∈ delims then shlexRun delims rest .ws tok quoted acc
      else if c = '#' then shlexRun delims rest .comment tok quoted acc
      else if c = '\\' then shlexRun delims rest .escWord tok quoted acc
      else if c ∈ shlexQuotes then shlexRun delims rest (.inQuote c) tok quoted acc
      else shlexRun delims rest .word (tok ++ [c]) quoted acc
  | c :: rest, .word, tok, quoted, acc =>
      if c ∈ delims then
        shlexRun delims rest .ws [] false
          (acc ++ if tok ≠ [] ∨ quoted then [(⟨tok⟩ : String)] else [])
      else if c = '#' then
        shlexRun delims rest .comment [] false
          (acc ++ if tok ≠ [] ∨ quoted then [(⟨tok⟩ : String)] else [])
      else if c ∈ shlexQuotes then shlexRun delims rest (.inQuote c) tok quoted acc
      else if c = '\\' then shlexRun delims rest .escWord tok quoted acc
      else shlexRun delims rest .word (tok ++ [c]) quoted acc
  | c :: rest, .comment, tok, quoted, acc =>
      if c = '\n' then shlexRun delims rest .ws tok quoted acc
      else shlexRun delims rest .comment tok quoted acc
  | c :: rest, .inQuote q, tok, _, acc =>
      if c = q then shlexRun delims rest .word tok true acc
      else if c = '\\' ∧ q ∈ shlexEscapedQuotes then
        shlexRun delims rest (.escQuote q) tok true acc
      else shlexRun delims rest (.inQuote q) (tok ++ [c]) true acc
  | c :: rest, .escWord, tok, quoted, acc =>
      shlexRun delims rest .word (tok ++ [c]) quoted acc
  | c :: rest, .escQuote q, tok, quoted, acc =>
      let tok' := if c ≠ '\\' ∧ c ≠ q then tok ++ ['\\', c] else tok ++ [c]
      shlexRun delims rest (.inQuote q) tok' quoted acc

/-- `Csv.__call__` with the default configuration
(`cast=str`, `delimiter=','`, `strip=string.whitespace`,
`post_process=list`): split with the configured `shlex`, strip each token,
collect in order. -/
def csvCall (value : String) : Except PyErr (List String) :=
  (shlexRun [','] value.data .ws [] false []).map
    (List.map (fun s => pyStripWs s))

/-! ## Spec-side definitions for refinement comparison -/

/-- Modelled from the spec: the boolean truthy/falsy token table of §6 —
case-insensitive, true-tokens `y, yes, t, true, on, 1`, false-tokens
`n, no, f, false, off, 0`, empty string false, anything else a hard error
(`none`). -/
def specBoolTable (s : String) : Option Bool :=
  if s = "" then some false
  else if pyLower s ∈ ["n", "no", "f", "false", "off", "0"] then some false
  else if pyLower s ∈ ["y", "yes", "t", "true", "on", "1"] then some true
  else none

/-- The spec's boolean mapping as a cast on `PyVal`: stringify, consult the
token table, hard `ValueError` on an unrecognised non-empty string. -/
def boolSpecApply (v : PyVal) : Except PyErr PyVal :=
  match specBoolTable (pyStr v) with
  | some b => .ok (.pyBool b)
  | none =>
      .error (.valueError
        ("invalid truth value " ++ "'" ++ pyLower (pyStr v) ++ "'"))

theorem applyCast_toBool_eq_spec (v : PyVal) :
    applyCast .toBool v = boolSpecApply v := by
  unfold applyCast boolSpecApply castBoolean strtobool specBoolTable
  by_cases hs : pyStr v = ""
  · simp [hs, Except.map]
  · by_cases hT : pyLower (pyStr v) ∈ ["y", "yes", "t", "true", "on", "1"]
    · by_cases hF : pyLower (pyStr v) ∈ ["n", "no", "f", "false", "off", "0"]
      · exfalso
        simp only [List.mem_cons, List.not_mem_nil, or_false] at hT
        rcases hT with h | h | h | h | h | h <;> rw [h] at hF <;>
          exact absurd hF (by decide)
      · simp [hs, hT, hF, Except.map]
    · by_cases hF : pyLower (pyStr v) ∈ ["n", "no", "f", "false", "off", "0"]
      · simp [hs, hT, hF, Except.map]
      · simp [hs, hT, hF, Except.map]

/-! ## The claims -/

/-- C1: for every option present in the host environment, `Config.get`
returns the environment's value with the cast applied — the result does not
depend on the repository at all (so a conflicting repository value is
ignored), and an empty-string environment value is still taken. -/
theorem c1_env_precedence (environ : List (String × String)) (repo : Repo)
    (option v : String) (default : Option PyVal) (cast : Cast)
    (h : lookupAssoc environ option = some v) :
    configGet environ repo option default cast = applyCast cast (.str v) := by
  simp [configGet, h]

/-- Witness for C1: `HOME` set to the empty string in the environment wins
over a conflicting `.env`-file binding. -/
theorem c1_env_precedence_witness :
    lookupAssoc [("HOME", "")] "HOME" = some "" ∧
    configGet [("HOME", "")] (.envfile [("HOME", "file")]) "HOME" none
        .doNothing = applyCast .doNothing (.str "") :=
  ⟨rfl, c1_env_precedence [("HOME", "")] (.envfile [("HOME", "file")])
    "HOME" "" none .doNothing rfl⟩

/-- C2: for an option absent from the environment and failing the
repository's own `__contains__` check, `Config.get` without a default raises
`UndefinedValueError` whose message names the missing option, and with any
real default (including `None`) returns that default with the cast
applied. -/
theorem c2_undefined_or_default (environ : List (String × String))
    (repo : Repo) (option : String) (cast : Cast)
    (henv : lookupAssoc environ option = none)
    (hrepo : repoContains environ repo option = false) :
    configGet environ repo option none cast =
      .error (.undefinedValueError (option ++
        " not found. Declare it as envvar or define a default value.")) ∧
    ∀ d : PyVal, configGet environ repo option (some d) cast =
      applyCast cast d := by
  refine ⟨?_, fun d => ?_⟩ <;> simp [configGet, henv, hrepo, undefinedMsg]

/-- Witness for C2: option `SECRET`, empty environment, empty store. -/
theorem c2_undefined_or_default_witness :
    lookupAssoc [] "SECRET" = none ∧
    repoContains [] Repo.empty "SECRET" = false ∧
    configGet [] Repo.empty "SECRET" none .doNothing =
      .error (.undefinedValueError
        "SECRET not found. Declare it as envvar or define a default value.") ∧
    configGet [] Repo.empty "SECRET" (some .pyNone) .doNothing =
      .ok .pyNone := by
  have h := c2_undefined_or_default [] Repo.empty "SECRET" .doNothing rfl rfl
  exact ⟨rfl, rfl, h.1, h.2 .pyNone⟩

/-- C3: resolving with the boolean-cast marker equals resolving the raw
value unchanged and then stringifying it and mapping it through the spec's
case-insensitive token table, with every unrecognised non-empty string a
hard `ValueError` propagated to the caller. -/
theorem c3_bool_cast_table (environ : List (String × String)) (repo : Repo)
    (option : String) (default : Option PyVal) :
    configGet environ repo option default .toBool =
      (configGet environ repo option default .doNothing).bind boolSpecApply := by
  unfold configGet
  cases hl : lookupAssoc environ option with
  | some v =>
      simp [Except.bind]
      exact applyCast_toBool_eq_spec (.str v)
  | none =>
      cases hc : repoContains environ repo option with
      | false =>
          cases default with
          | none => simp [Except.bind]
          | some d =>
              simp [Except.bind]
              exact applyCast_toBool_eq_spec d
      | true =>
          cases hg : repoGetitem repo option with
          | error e => simp [Except.bind]
          | ok vo =>
              simp [Except.bind]
              exact applyCast_toBool_eq_spec (pyOfOpt vo)

/-- C4 counterexample: the line `K=''a''` has trimmed value `''a''` (length
5, first and last characters both `'`), but the parser stores `a` — Python's
`v.strip('\'"')` removes *all* leading and trailing quote characters, not
just the outermost pair, so the interior's edge quotes are not left
unmodified. -/
theorem c4_counterexample :
    lookupAssoc (repositoryEnvData ["K=''a''"]) "K" = some "a" ∧
    ("a" : String) ≠ "'a'" := ⟨rfl, by decide⟩

theorem stripCharsL_quoted (q : Char) (mid : List Char)
    (hq : q ∈ (['\'', '"'] : List Char))
    (hh : ∀ c, mid.head? = some c → c ∉ (['\'', '"'] : List Char))
    (hl : ∀ c, mid.getLast? = some c → c ∉ (['\'', '"'] : List Char)) :
    stripCharsL ['\'', '"'] (q :: (mid ++ [q])) = mid := by
  unfold stripCharsL lstripChars
  cases mid with
  | nil =>
      rcases (by simpa using hq : q = '\'' ∨ q = '"') with rfl | rfl <;> rfl
  | cons m0 mrest =>
      have hm0 : m0 ∉ (['\'', '"'] : List Char) := hh m0 rfl
      obtain ⟨r0, rrest, hrev⟩ : ∃ a l, (m0 :: mrest).reverse = a :: l := by
        cases hr : (m0 :: mrest).reverse with
        | nil => exact absurd hr (by simp)
        | cons a l => exact ⟨a, l, rfl⟩
      have hr0 : r0 ∉ (['\'', '"'] : List Char) := by
        apply hl
        rw [← List.head?_reverse, hrev]
        rfl
      rw [List.cons_append, List.dropWhile_cons_of_pos (by simpa using hq),
          List.dropWhile_cons_of_neg (by simpa using hm0)]
      rw [show (m0 :: (mrest ++ [q])).reverse = q :: (m0 :: mrest).reverse by
        rw [← List.cons_append, List.reverse_append]
        rfl]
      rw [List.dropWhile_cons_of_pos (by simpa using hq), hrev,
          List.dropWhile_cons_of_neg (by simpa using hr0), ← hrev,
          List.reverse_reverse]

/-- C4 (amended): for a retained line whose trimmed value has length at
least 2 and equal first and last quote characters, the parser applies
Python's `strip('\'"')` — removing *all* leading and trailing quote
characters of either kind; this equals stripping exactly the outermost pair
whenever the interior does not itself begin or end with a quote
character. -/
theorem c4_amended (q : Char) (mid : List Char) (hq : q = '\'' ∨ q = '"') :
    processValue (q :: (mid ++ [q])) =
      stripCharsL ['\'', '"'] (q :: (mid ++ [q])) ∧
    ((∀ c, mid.head? = some c → ¬(c = '\'' ∨ c = '"')) →
      (∀ c, mid.getLast? = some c → ¬(c = '\'' ∨ c = '"')) →
      processValue (q :: (mid ++ [q])) = mid) := by
  have hlast : (q :: (mid ++ [q])).getLast? = some q := by
    rw [← List.cons_append]
    exact List.getLast?_concat _
  have hguard : 2 ≤ (q :: (mid ++ [q])).length ∧
      (((q :: (mid ++ [q])).head? = some '\'' ∧
        (q :: (mid ++ [q])).getLast? = some '\'') ∨
       ((q :: (mid ++ [q])).head? = some '"' ∧
        (q :: (mid ++ [q])).getLast? = some '"')) := by
    refine ⟨by simp, ?_⟩
    rcases hq with rfl | rfl
    · exact Or.inl ⟨rfl, hlast⟩
    · exact Or.inr ⟨rfl, hlast⟩
  have hpv : processValue (q :: (mid ++ [q])) =
      stripCharsL ['\'', '"'] (q :: (mid ++ [q])) := by
    unfold processValue
    rw [if_pos hguard]
  refine ⟨hpv, fun hh hl => ?_⟩
  rw [hpv]
  exact stripCharsL_quoted q mid (by simpa using hq)
    (fun c hc => by simpa using hh c hc)
    (fun c hc => by simpa using hl c hc)

/-- Witness for C4: the properly quoted value `'t'` loses exactly its outer
pair. -/
theorem c4_amended_witness :
    processValue ('\'' :: (['t'] ++ ['\''])) =
      stripCharsL ['\'', '"'] ('\'' :: (['t'] ++ ['\''])) ∧
    processValue ('\'' :: (['t'] ++ ['\''])) = ['t'] := by
  have h := c4_amended '\'' ['t'] (Or.inl rfl)
  refine ⟨h.1, h.2 ?_ ?_⟩ <;>
    · intro c hc
      simp at hc
      subst hc
      decide

/-- C5 counterexample: the line `K='` has the single quote character as its
trimmed value, and the parser stores it verbatim — the value is *not*
stripped or otherwise modified, contrary to the claim. -/
theorem c5_counterexample :
    lookupAssoc (repositoryEnvData ["K='"]) "K" = some "'" ∧
    lookupAssoc (repositoryEnvData ["K=\""]) "K" = some "\"" := ⟨rfl, rfl⟩

/-- C5 (amended): a trimmed value shorter than two characters — in
particular a lone quote mark — is excluded by the `len(v) >= 2` guard and is
stored unchanged by the quote-stripping step. -/
theorem c5_amended (v : List Char) (h : v.length < 2) :
    processValue v = v := by
  unfold processValue
  rw [if_neg]
  rintro ⟨h2, -⟩
  omega

/-- Witness for C5: the single-quote character value is left unchanged. -/
theorem c5_amended_witness :
    processValue ['\''] = ['\''] ∧ processValue ['"'] = ['"'] :=
  ⟨c5_amended ['\''] (by decide), c5_amended ['"'] (by decide)⟩

/-- A filesystem that contains only the file `/.env` (at the root) and never
raises. -/
def fsRootOnly : Fs := ⟨fun d n => .ok (decide (d = [] ∧ n = ".env"))⟩

/-- C6 counterexample: starting the search at `/a` on a filesystem whose
only supported file is `/.env`, the search reports NotFound — the recursion
stops when the parent *is* the root, so the root directory itself is never
examined, contrary to the claim that every ancestor up to and including the
root is examined before NotFound. -/
theorem c6_counterexample :
    findFile fsRootOnly ["a"] = .ok none ∧
    fsRootOnly.isfile [] ".env" = .ok true := by
  constructor
  · unfold findFile
    rfl
  · rfl

theorem findInDir_eq_none (fs : Fs) (d : List String) :
    ∀ names, findInDir fs d names = .ok none →
      ∀ n ∈ names, fs.isfile d n = .ok false := by
  intro names
  induction names with
  | nil =>
      intro _ n hn
      exact absurd hn (List.not_mem_nil n)
  | cons a rest ih =>
      intro h n hn
      unfold findInDir at h
      cases hfa : fs.isfile d a with
      | error e =>
          rw [hfa] at h
          exact absurd h (by simp)
      | ok b =>
          rw [hfa] at h
          cases b with
          | false =>
              rcases List.mem_cons.mp hn with rfl | hn'
              · exact hfa
              · exact ih h n hn'
          | true => exact absurd h (by simp)

/-- C6 (amended): the upward search examines the starting directory and each
ancestor strictly between it and the root, stopping once the parent is the
root — the root directory itself is examined only when it is the starting
directory.  When the search reports NotFound, none of those examined
directories contains a supported file. -/
theorem c6_amended (fs : Fs) :
    ∀ path, findFile fs path = .ok none →
      ∀ d ∈ searchChain path, ∀ name ∈ supportedNames,
        fs.isfile d name = .ok false := by
  suffices H : ∀ n path, path.length = n → findFile fs path = .ok none →
      ∀ d ∈ searchChain path, ∀ name ∈ supportedNames,
        fs.isfile d name = .ok false by
    intro path h
    exact H path.length path rfl h
  intro n
  induction n using Nat.strong_induction_on with
  | _ n ih =>
    intro path hn h d hd name hname
    unfold findFile at h
    cases hfd : findInDir fs path supportedNames with
    | error e =>
        rw [hfd] at h
        exact absurd h (by simp)
    | ok o =>
        rw [hfd] at h
        cases o with
        | some nm => exact absurd h (by simp)
        | none =>
            have hbase := findInDir_eq_none fs path supportedNames hfd
            by_cases hp : path.dropLast = []
            · rw [if_pos hp] at h
              cases path with
              | nil =>
                  simp [searchChain] at hd
                  subst hd
                  exact hbase name hname
              | cons a p =>
                  simp [searchChain, hp] at hd
                  subst hd
                  exact hbase name hname
            · rw [if_neg hp] at h
              cases path with
              | nil => simp at hp
              | cons a p =>
                  simp only [searchChain, hp, if_neg, List.mem_cons] at hd
                  rcases hd with rfl | hd'
                  · exact hbase name hname
                  · refine ih (a :: p).dropLast.length ?_ (a :: p).dropLast
                      rfl h d hd' name hname
                    rw [← hn]
                    simp [List.length_dropLast]

/-- A filesystem with no supported file anywhere, error-free. -/
def fsNone : Fs := ⟨fun _ _ => .ok false⟩

/-- Witness for C6: an empty filesystem from `/a/b`; the examined parent
`/a` is indeed probed and empty. -/
theorem c6_amended_witness :
    findFile fsNone ["a", "b"] = .ok none ∧
    fsNone.isfile ["a"] ".env" = .ok false := by
  have h : findFile fsNone ["a", "b"] = .ok none := by
    simp [findFile, findInDir, fsNone, supportedNames]
  exact ⟨h, c6_amended fsNone ["a", "b"] h ["a"] (by simp [searchChain])
    ".env" (by simp [supportedNames])⟩

/-- C7: any error raised during the upward search is caught by
`AutoConfig._load`, which then constructs the `RepositoryEmpty` store —
discovery errors never escape. -/
theorem c7_discovery_error_downgraded (fs : Fs) (path : List String)
    (e : PyErr) (h : findFile fs path = .error e) :
    autoLoadKind fs path = .empty := by
  simp [autoLoadKind, h]

/-- A filesystem whose every `isfile` probe raises an operating-system
error. -/
def fsErr : Fs := ⟨fun _ _ => .error .osError⟩

/-- Witness for C7: a permission-denied filesystem still yields the empty
store. -/
theorem c7_discovery_error_downgraded_witness :
    findFile fsErr ["a"] = .error .osError ∧
    autoLoadKind fsErr ["a"] = .empty := by
  have h : findFile fsErr ["a"] = .error .osError := by
    unfold findFile
    rfl
  exact ⟨h, c7_discovery_error_downgraded fsErr ["a"] .osError h⟩

/-- C8 counterexample: `RepositoryEmpty` contains no key, yet its
`__getitem__` returns the placeholder `None` (`Except.ok none`) instead of
failing loudly. -/
theorem c8_counterexample :
    repoContains [] Repo.empty "ANY" = false ∧
    repoGetitem Repo.empty "ANY" = .ok none := ⟨rfl, rfl⟩

/-- C8 (amended): `RepositoryEnv` and `RepositoryIni` do fail loudly
(`KeyError`, `NoOptionError`) on a direct lookup of a key failing their own
`__contains__` check, but `RepositoryEmpty` instead returns the placeholder
`None`. -/
theorem c8_amended (environ : List (String × String)) (key : String) :
    (∀ data, repoContains environ (.envfile data) key = false →
      repoGetitem (.envfile data) key = .error (.keyError key)) ∧
    (∀ sec, repoContains environ (.ini sec) key = false →
      repoGetitem (.ini sec) key = .error (.noOptionError key)) ∧
    repoContains environ Repo.empty key = false ∧
    repoGetitem Repo.empty key = .ok none := by
  refine ⟨fun data hdata => ?_, fun sec hsec => ?_, rfl, rfl⟩
  · cases hl : lookupAssoc data key with
    | some v => simp [repoContains, hl] at hdata
    | none => simp [repoGetitem, hl]
  · cases hl : lookupAssoc sec (pyLower key) with
    | some v => simp [repoContains, hl] at hsec
    | none => simp [repoGetitem, hl]

/-- Witness for C8: a concrete empty parsed file and an ini section without
the key. -/
theorem c8_amended_witness :
    repoContains [] (Repo.envfile []) "K" = false ∧
    repoGetitem (Repo.envfile []) "K" = .error (.keyError "K") ∧
    repoContains [] (Repo.ini [("other", "1")]) "K" = false ∧
    repoGetitem (Repo.ini [("other", "1")]) "K" =
      .error (.noOptionError "K") := by
  have h := c8_amended [] "K"
  exact ⟨rfl, h.1 [] rfl, rfl, h.2.1 [("other", "1")] rfl⟩

/-- C9: the default `Csv()` cast splits `"a, b , c"` into
`["a", "b", "c"]` (each token whitespace-trimmed) and `'a,"b,c",d'` into
`["a", "b,c", "d"]` (the double-quoted span kept literal, not split at its
interior comma). -/
theorem c9_listcast :
    csvCall "a, b , c" = .ok ["a", "b", "c"] ∧
    csvCall "a,\"b,c\",d" = .ok ["a", "b,c", "d"] := ⟨rfl, rfl⟩

/-- C10: a key set in the environment but absent from the parsed file makes
`RepositoryEnv.__contains__` answer true while `RepositoryEnv.__getitem__`
raises `KeyError` — the store's public interface is inconsistent for
environment-only keys. -/
theorem c10_env_only_inconsistency (environ data : List (String × String))
    (key v : String) (henv : lookupAssoc environ key = some v)
    (hdata : lookupAssoc data key = none) :
    repoContains environ (.envfile data) key = true ∧
    repoGetitem (.envfile data) key = .error (.keyError key) := by
  constructor
  · simp [repoContains, envHas, henv]
  · simp [repoGetitem, hdata]

/-- Witness for C10: `ONLYENV` set in the environment, absent from the
file. -/
theorem c10_env_only_inconsistency_witness :
    repoContains [("ONLYENV", "x")] (.envfile [("OTHER", "y")]) "ONLYENV" =
      true ∧
    repoGetitem (.envfile [("OTHER", "y")]) "ONLYENV" =
      .error (.keyError "ONLYENV") :=
  c10_env_only_inconsistency [("ONLYENV", "x")] [("OTHER", "y")] "ONLYENV"
    "x" rfl rfl

end Decouple
